import Mathlib

set_option maxRecDepth 8000

/- Shallow embedding of the bytetorrent tracker and client.

   Sources embedded:
   - src/src/tracker/tracker_impl.go : eventHandler (prepares, accepts,
     commits, gets, reports, confirms, creates, requests cases), logOp,
     commitOp, catchUp, paxosHandler;
   - src/src/client/client_impl.go : eventHandler (offers case),
     getResponsiveTrackerNode, downloadFile, downloadChunk;
   - src/src/torrent/torrentproto/proto.go : TrackerNode, ID, ChunkID,
     Torrent.

   The `tracker/trackerproto` declarations (Status, Operation, Node) are
   not under src/; their fields and constructor names are fixed by their
   uses in tracker_impl.go, and the constant ordering is modelled from the
   spec where noted.  Go maps become association lists with the same
   lookup/replace semantics; a missing map read yields the zero value,
   modelled by `getD` with the explicit zero.  Goroutine channel sends
   become explicit result lists. -/

/-- torrentproto.ID: pair (name, content hash). -/
structure TorrentID where
  name : String
  hash : String
deriving DecidableEq

/-- torrentproto.ChunkID: a torrent id plus a chunk index. -/
structure ChunkID where
  id : TorrentID
  chunkNum : Int
deriving DecidableEq

/-- torrentproto.TrackerNode: one tracker host:port as listed in a torrent. -/
structure TrackerNode where
  hostPort : String
deriving DecidableEq

/-- torrentproto.Torrent: a deserialized .torrent descriptor. -/
structure Torrent where
  id : TorrentID
  chunkHashes : List (Int × String)
  trackerNodes : List TrackerNode
  chunkSize : Int
  fileSize : Int
deriving DecidableEq

/-- trackerproto.Node: a cluster member (host:port plus node id),
fields as used in tracker_impl.go. -/
structure Node where
  hostPort : String
  nodeID : Int
deriving DecidableEq

/-- Modelled from the spec: the status codes of `tracker/trackerproto`,
whose declaration file is not under src/.  The spec lists them as
"OK, Reject, OutOfDate, NotReady, FileNotFound, OutOfRange, InvalidID,
InvalidTrackers", so `ok` is the first declared constant. -/
inductive Status where
  | ok
  | reject
  | outOfDate
  | notReady
  | fileNotFound
  | outOfRange
  | invalidID
  | invalidTrackers
deriving DecidableEq

/-- Modelled from the spec: the Go zero value of the integer-typed
`trackerproto.Status`.  With the spec's listing order and Go's iota, the
first constant OK has value 0, which is the zero value an unassigned
`var status trackerproto.Status` keeps. -/
def statusZero : Status := Status.ok

/-- Modelled from the spec: the operation kinds of
`trackerproto.Operation`, listed as "None, Add, Delete, Create" with
None the sentinel, hence the first (zero-valued) constant. -/
inductive OpType where
  | none
  | add
  | delete
  | create
deriving DecidableEq

/-- The Go zero value of torrentproto.ID. -/
def TorrentID.zero : TorrentID := { name := "", hash := "" }

/-- The Go zero value of torrentproto.ChunkID. -/
def ChunkID.zero : ChunkID := { id := TorrentID.zero, chunkNum := 0 }

/-- The Go zero value of torrentproto.Torrent. -/
def Torrent.zero : Torrent :=
  { id := TorrentID.zero, chunkHashes := [], trackerNodes := [],
    chunkSize := 0, fileSize := 0 }

/-- trackerproto.Operation: a log entry payload, fields (OpType, Chunk,
ClientAddr, Torrent) as used in tracker_impl.go. -/
structure Operation where
  opType : OpType
  chunk : ChunkID
  clientAddr : String
  torrent : Torrent
deriving DecidableEq

/-- The Go zero value of trackerproto.Operation; equal to the sentinel
`Operation{OpType: None}` built in NewTrackerServer and commitOp. -/
def Operation.zero : Operation :=
  { opType := OpType.none, chunk := ChunkID.zero, clientAddr := "",
    torrent := Torrent.zero }

/-- The Add operation exactly as the confirms case of eventHandler builds
it: `Operation{OpType: Add, Chunk: ..., ClientAddr: ...}` (Torrent left at
its zero value). -/
def mkAddOp (c : ChunkID) (a : String) : Operation :=
  { opType := OpType.add, chunk := c, clientAddr := a, torrent := Torrent.zero }

/-- The Delete operation exactly as the reports case of eventHandler
builds it (Torrent left at its zero value). -/
def mkDeleteOp (c : ChunkID) (a : String) : Operation :=
  { opType := OpType.delete, chunk := c, clientAddr := a, torrent := Torrent.zero }

/-- The Create operation exactly as the creates case of eventHandler
builds it: `Operation{OpType: Create, Torrent: ...}` (Chunk and ClientAddr
left at their zero values). -/
def mkCreateOp (tor : Torrent) : Operation :=
  { opType := OpType.create, chunk := ChunkID.zero, clientAddr := "",
    torrent := tor }

/-- Association-list lookup, the embedding of a Go map read. -/
def alookup {κ α : Type} [DecidableEq κ] : List (κ × α) → κ → Option α
  | [], _ => Option.none
  | (k, a) :: rest, q => if q = k then some a else alookup rest q

/-- Association-list write, the embedding of a Go map assignment
(replaces the binding if present, appends it otherwise). -/
def aset {κ α : Type} [DecidableEq κ] : List (κ × α) → κ → α → List (κ × α)
  | [], k, a => [(k, a)]
  | (k0, a0) :: rest, k, a =>
    if k = k0 then (k, a) :: rest else (k0, a0) :: aset rest k a

/-- Membership test in a peer set (a Go map[string]struct\x7b\x7d keyed by
client addresses, embedded as the list of its keys). -/
def hasAddr : List String → String → Bool
  | [], _ => false
  | x :: rest, a => if a = x then true else hasAddr rest a

/-- Insert a client address into a peer set (`m[v.ClientAddr] = struct\x7b\x7d`). -/
def addAddr (l : List String) (a : String) : List String :=
  if hasAddr l a then l else a :: l

/-- Remove a client address from a peer set (`delete(m, v.ClientAddr)`). -/
def removeAddr : List String → String → List String
  | [], _ => []
  | x :: rest, a => if x = a then removeAddr rest a else x :: removeAddr rest a

/-- The acceptor / learner state of one tracker node, the fields of
trackerServer that commitOp, catchUp and the eventHandler cases touch. -/
structure TrackerState where
  highestN : Int
  accN : Int
  accV : Operation
  seqNum : Int
  log : List (Int × Operation)
  torrents : List (TorrentID × Torrent)
  peers : List (ChunkID × List String)
  pendingOps : List Operation
deriving DecidableEq

/-- The state NewTrackerServer builds: empty log, torrents, peers and
pending list, seqNum 0, accV the None sentinel. -/
def TrackerState.init : TrackerState :=
  { highestN := 0, accN := 0, accV := Operation.zero, seqNum := 0,
    log := [], torrents := [], peers := [], pendingOps := [] }

/-- Whether a pending entry matches a committed operation, exactly the
condition of commitOp's sweep: `pen.OpType == v.OpType && pen.Chunk ==
v.Chunk && pen.ClientAddr == v.ClientAddr` (the Torrent field is not
compared). -/
def matchesOp (p v : Operation) : Bool :=
  decide (p.opType = v.opType) && decide (p.chunk = v.chunk) &&
    decide (p.clientAddr = v.clientAddr)

/-- commitOp's sweep over the pending list.  Returns (answered, remaining):
answered entries get an OK reply.  In the source, `t.pendingOps.Remove(e)`
nils the element's next pointer, so `e = e.Next()` after a removal yields
nil and the loop stops: at most the first matching entry is removed and
answered per commit. -/
def sweepPending : List Operation → Operation → List Operation × List Operation
  | [], _ => ([], [])
  | p :: rest, v =>
    if matchesOp p v then ([p], rest)
    else
      let r := sweepPending rest v
      (r.1, p :: r.2)

/-- The non-recursive part of commitOp: bump seqNum, reset the accepted
pair, ensure a peer-set entry for v.Chunk, apply the operation kind, and
sweep the pending list. -/
def commitStep (t : TrackerState) (v : Operation) : TrackerState :=
  let peers0 := match alookup t.peers v.chunk with
    | some _ => t.peers
    | Option.none => aset t.peers v.chunk []
  let m := (alookup peers0 v.chunk).getD []
  let peers1 := match v.opType with
    | OpType.add => aset peers0 v.chunk (addAddr m v.clientAddr)
    | OpType.delete => aset peers0 v.chunk (removeAddr m v.clientAddr)
    | _ => peers0
  let torrents1 := match v.opType with
    | OpType.create => aset t.torrents v.torrent.id v.torrent
    | _ => t.torrents
  { t with
    seqNum := t.seqNum + 1
    accN := 0
    accV := Operation.zero
    peers := peers1
    torrents := torrents1
    pendingOps := (sweepPending t.pendingOps v).2 }

/-- commitOp's tail: while the next slot is already in the log, commit it
too.  Fuelled: each successful lookup consumes a distinct log key because
seqNum strictly increases, so `t.log.length` fuel is enough. -/
def commitDrain : Nat → TrackerState → TrackerState
  | 0, t => t
  | Nat.succ fuel, t =>
    match alookup t.log t.seqNum with
    | some v => commitDrain fuel (commitStep t v)
    | Option.none => t

/-- tracker_impl.go commitOp: commit v, then recursively commit any
contiguous already-logged successors.  Note that commitOp itself never
writes the log. -/
def commitOp (t : TrackerState) (v : Operation) : TrackerState :=
  commitDrain t.log.length (commitStep t v)

/-- tracker_impl.go logOp. -/
def logOp (t : TrackerState) (s : Int) (v : Operation) : TrackerState :=
  { t with log := aset t.log s v }

/-- The commits case of eventHandler: log the value; if it is for the
current slot, also commit it (which may drain further logged slots). -/
def commitArrive (t : TrackerState) (s : Int) (v : Operation) : TrackerState :=
  if s = t.seqNum then commitOp (logOp t s v) v else logOp t s v

/-- Committing a sequence of operations in slot order: each value arrives
as a Commit message for the replica's current seqNum. -/
def commitList (t : TrackerState) (ops : List Operation) : TrackerState :=
  ops.foldl (fun st v => commitArrive st st.seqNum v) t

/-- Whether addr is in peers[chunk]; a missing entry is the empty set. -/
def peersContains (t : TrackerState) (c : ChunkID) (a : String) : Bool :=
  hasAddr ((alookup t.peers c).getD []) a

/-- Modelled from the spec: torrent.NumChunks, whose file (the torrent
codec package) is not under src/; the spec fixes
`chunk_count = ceil(file_size / chunk_size)`. -/
def numChunks (tor : Torrent) : Int :=
  (tor.fileSize + tor.chunkSize - 1) / tor.chunkSize

/-- The reply of the RequestChunk RPC. -/
structure RequestReply where
  status : Status
  peers : List String
  chunkHash : String
deriving DecidableEq

/-- The requests case of eventHandler: admission checks, then a snapshot
of the peer set and the tracker's chunk hash. -/
def requestHandler (t : TrackerState) (c : ChunkID) : RequestReply :=
  match alookup t.torrents c.id with
  | Option.none => { status := Status.fileNotFound, peers := [], chunkHash := "" }
  | some tor =>
    if c.chunkNum < 0 ∨ numChunks tor ≤ c.chunkNum then
      { status := Status.outOfRange, peers := [], chunkHash := "" }
    else
      { status := Status.ok,
        peers := (alookup t.peers c).getD [],
        chunkHash := (alookup tor.chunkHashes c.chunkNum).getD "" }

/-- The membership check of the creates case of eventHandler: every
tracker node named by the descriptor is in the cluster and every cluster
node is named by the descriptor (compared by host:port). -/
def correctTrackers (nodes : List Node) (tor : Torrent) : Bool :=
  tor.trackerNodes.all (fun tn => nodes.any (fun n => n.hostPort == tn.hostPort)) &&
    nodes.all (fun n => tor.trackerNodes.any (fun tn => n.hostPort == tn.hostPort))

/-- What a CreateEntry request produces at admission: the sequence of
status replies sent on the request's reply channel, and the operations
enqueued as pending. -/
structure CreateResult where
  replies : List Status
  enqueued : List Operation
deriving DecidableEq

/-- The creates case of eventHandler.  When the membership check fails it
sends InvalidTrackers but does not return: execution continues into the
torrents lookup, so an unused id still enqueues a pending Create, and a
used id sends a second reply, InvalidID. -/
def createsHandler (nodes : List Node) (torrents : List (TorrentID × Torrent))
    (tor : Torrent) : CreateResult :=
  let pre : List Status :=
    if correctTrackers nodes tor then [] else [Status.invalidTrackers]
  match alookup torrents tor.id with
  | Option.none => { replies := pre, enqueued := [mkCreateOp tor] }
  | some _ => { replies := pre ++ [Status.invalidID], enqueued := [] }

/-- The outcome of the accepts case of eventHandler: the reply status,
the slot of the self catch-up it enqueues through t.outOfDate (if any),
and the acceptor state afterwards. -/
structure AcceptOutcome where
  status : Status
  catchUpTo : Option Int
  post : TrackerState
deriving DecidableEq

/-- The accepts case of eventHandler.  In the `SeqNum > t.seqNum` branch
the source only spawns the catch-up send; the reply's status variable is
never assigned and keeps its zero value. -/
def acceptHandler (t : TrackerState) (paxNum s : Int) (v : Operation) : AcceptOutcome :=
  if s < t.seqNum then
    { status := Status.outOfDate, catchUpTo := Option.none, post := t }
  else if t.seqNum < s then
    { status := statusZero, catchUpTo := some s, post := t }
  else if paxNum < t.highestN then
    { status := Status.reject, catchUpTo := Option.none, post := t }
  else
    { status := Status.ok, catchUpTo := Option.none,
      post := { t with highestN := paxNum, accN := paxNum, accV := v } }

/-- The reply of the GetOp RPC. -/
structure GetReply where
  status : Status
  value : Operation
deriving DecidableEq

/-- The gets case of eventHandler: for `s >= t.seqNum` reply OutOfDate,
else reply OK with `t.log[s]` — the zero-valued Operation when the log
has no entry at s. -/
def getOpHandler (t : TrackerState) (s : Int) : GetReply :=
  if t.seqNum ≤ s then { status := Status.outOfDate, value := Operation.zero }
  else { status := Status.ok, value := (alookup t.log s).getD Operation.zero }

/-- One successful round of catchUp: a peer's GetOp returned OK with
value v, and the replica runs `t.commitOp(reply.Value)` — with no logOp. -/
def catchUpStep (t : TrackerState) (v : Operation) : TrackerState :=
  commitOp t v

/-- The proposer state owned by paxosHandler: the goroutine-local
variables (prepPhase, accPhase, inPaxos, accN, accV, oks) together with
the trackerServer fields it reads and writes (myN, highestN, seqNum,
nodeID, numNodes, pendingOps). -/
structure ProposerState where
  myN : Int
  highestN : Int
  seqNum : Int
  nodeID : Int
  numNodes : Int
  inPaxos : Bool
  prepPhase : Bool
  accPhase : Bool
  accN : Int
  accV : Operation
  oks : Int
  pendingOps : List Operation
deriving DecidableEq

/-- The events paxosHandler's prepare phase reacts to: a signal on the
initPaxos channel, or a prepare reply funneled back by sendMess. -/
inductive PaxEvent where
  | initPaxos
  | prepareReply (reqPaxNum : Int) (status : Status) (paxNum : Int)
      (value : Operation) (replySeq : Int)
deriving DecidableEq

/-- What a paxosHandler step broadcasts. -/
inductive PaxOut where
  | nothingOut
  | prepareOut (myN seqNum : Int)
  | acceptOut (myN seqNum : Int) (v : Operation)
deriving DecidableEq

/-- One step of paxosHandler's prepare phase, transcribed from the
initPaxos and prepareReply cases of its select loop.  On initPaxos the
source resets accV (and oks, the phase flags, myN) but leaves accN at
whatever an earlier round stored.  On a prepare reply for the current
proposal number: count OKs, adopt a carried value when its PaxNum beats
accN, and once a strict majority is reached broadcast Accept with the
adopted value, else with the pending head, else go idle.  (Timers and
the OutOfDate catch-up send touch no proposer state and are elided.) -/
def paxosStep (p : ProposerState) (e : PaxEvent) : ProposerState × PaxOut :=
  match e with
  | PaxEvent.initPaxos =>
    let myN1 := (p.highestN - (p.highestN % p.numNodes)) + (p.numNodes + p.nodeID)
    ({ p with
        inPaxos := true
        accV := Operation.zero
        myN := myN1
        oks := 0
        prepPhase := true
        accPhase := false },
      PaxOut.prepareOut myN1 p.seqNum)
  | PaxEvent.prepareReply req st paxNum v _ =>
    if req = p.myN ∧ p.prepPhase = true then
      let p1 :=
        if st = Status.ok then
          let p0 := { p with oks := p.oks + 1 }
          if v.opType ≠ OpType.none ∧ p.accN < paxNum then
            { p0 with accN := paxNum, accV := v }
          else p0
        else p
      if p1.numNodes / 2 < p1.oks then
        let p2 :=
          if p1.accV.opType = OpType.none then
            match p1.pendingOps with
            | vp :: _ => { p1 with accV := vp }
            | [] => p1
          else p1
        if p2.accV.opType ≠ OpType.none then
          ({ p2 with oks := 0, prepPhase := false, accPhase := true },
            PaxOut.acceptOut p2.myN p2.seqNum p2.accV)
        else ({ p2 with inPaxos := false }, PaxOut.nothingOut)
      else (p1, PaxOut.nothingOut)
    else (p, PaxOut.nothingOut)

/-- Run paxosHandler over a list of events, collecting the broadcasts. -/
def paxosRun (p : ProposerState) (es : List PaxEvent) : ProposerState × List PaxOut :=
  es.foldl (fun acc e =>
    let r := paxosStep acc.1 e
    (r.1, acc.2 ++ [r.2])) (p, [])

/-- What one peer attempt inside downloadChunk yields: a failed dial, a
failed RPC, or a chunk of bytes together with whether the local
WriteChunk would succeed. -/
inductive PeerFetch where
  | dialFail
  | rpcFail
  | got (chunk : List Nat) (writeOk : Bool)
deriving DecidableEq

/-- client_impl.go downloadChunk, parameterized by the SHA-1 digest
function `h` (the code computes `string(sha1(chunk))`).  Tries peers in
the given order; skips a peer on dial error, RPC error, a chunk whose
digest differs from the descriptor's hash for this chunkNum, or a failed
write; returns no error as soon as one chunk is written.  The second
component records the chunks actually written to the file. -/
def downloadChunk (h : List Nat → String) (tor : Torrent) (chunkNum : Int) :
    List PeerFetch → Option String × List (List Nat)
  | [] => (some "No peers responded with chunk", [])
  | f :: rest =>
    match f with
    | PeerFetch.dialFail => downloadChunk h tor chunkNum rest
    | PeerFetch.rpcFail => downloadChunk h tor chunkNum rest
    | PeerFetch.got chunk writeOk =>
      if h chunk = (alookup tor.chunkHashes chunkNum).getD "" then
        if writeOk then (Option.none, [chunk])
        else downloadChunk h tor chunkNum rest
      else downloadChunk h tor chunkNum rest

/-- The environment one chunk of a download sees: the tracker's
RequestChunk answer (none models an RPC failure, otherwise the reported
chunk hash and peer list) and the peers' behaviour. -/
structure ChunkEnv where
  trackerCall : Option (String × List String)
  fetches : List PeerFetch

/-- client_impl.go downloadFile, after the tracker connection is
resolved: for each chunk in the given order, ask the tracker, fail the
whole download on an RPC error, on a reported hash that differs from the
descriptor's hash, or on a failed downloadChunk; succeed when every chunk
in the order has been written. -/
def downloadFile (h : List Nat → String) (tor : Torrent)
    (env : Int → ChunkEnv) : List Int → Option String
  | [] => Option.none
  | c :: rest =>
    match (env c).trackerCall with
    | Option.none => some "Failed to make RPC"
    | some (reportedHash, _) =>
      if reportedHash = (alookup tor.chunkHashes c).getD "" then
        match downloadChunk h tor c (env c).fetches with
        | (some e, _) => some e
        | (Option.none, _) => downloadFile h tor env rest
      else some "Bad torrent file"

/-- client_impl.go getResponsiveTrackerNode: the first tracker node of
the torrent that accepts a connection, where `alive` says which
host:ports accept a dial. -/
def getResponsiveTrackerNode (alive : String → Bool) (tor : Torrent) :
    Option TrackerNode :=
  tor.trackerNodes.find? (fun tn => alive tn.hostPort)

/-- The ConfirmChunk loop of the offers case: confirm each chunk in
order; an RPC error or a FileNotFound reply aborts with that error. -/
def offerConfirmLoop (confirmCall : Nat → Option Status) : List Nat → Option String
  | [] => Option.none
  | k :: rest =>
    match confirmCall k with
    | Option.none => some "Previously responsive Tracker has failed"
    | some st =>
      if st = Status.fileNotFound then
        some "Tried to offer file which does not exist on Tracker"
      else offerConfirmLoop confirmCall rest

/-- The error the offers case of the client eventHandler sends back on
offer.Reply.  When no tracker node accepts a connection the source
executes `offer.Reply <- nil; return`: the caller receives a nil error. -/
def offerReply (alive : String → Bool) (confirmCall : Nat → Option Status)
    (tor : Torrent) : Option String :=
  match getResponsiveTrackerNode alive tor with
  | Option.none => Option.none
  | some _ => offerConfirmLoop confirmCall (List.range (numChunks tor).toNat)

/-- The torrent of the spec's S1/S2 scenarios: three chunks, every chunk
hash "banana", registered with the single-node cluster. -/
def tor0 : Torrent :=
  { id := { name := "TestName", hash := "TestHash" },
    chunkHashes := [(0, "banana"), (1, "banana"), (2, "banana")],
    trackerNodes := [{ hostPort := "localhost:9090" }],
    chunkSize := 10, fileSize := 30 }

/-- Chunk 0 of tor0. -/
def chunk0 : ChunkID := { id := tor0.id, chunkNum := 0 }

/-- The single-node cluster of the S1/S2 scenarios. -/
def cluster0 : List Node := [{ hostPort := "localhost:9090", nodeID := 0 }]

/-- A descriptor whose tracker_nodes is not the cluster membership (the
S3 scenario's made-up tracker list). -/
def badTor : Torrent :=
  { id := { name := "BadName", hash := "BadHash" },
    chunkHashes := [(0, "x")],
    trackerNodes := [{ hostPort := "this is my port" }],
    chunkSize := 10, fileSize := 10 }

/-- A value carried by a prepare reply in the first (aborted) round of
the paxosHandler scenario. -/
def v1 : Operation := mkAddOp { id := { name := "f", hash := "h" }, chunkNum := 0 } "peer1"

/-- The value carried by the only OK prepare reply of the second round
of the paxosHandler scenario (accepted_n 2). -/
def v2 : Operation := mkAddOp { id := { name := "f", hash := "h" }, chunkNum := 1 } "peer2"

/-- The head of the local pending queue in the paxosHandler scenario. -/
def vp : Operation := mkAddOp { id := { name := "g", hash := "k" }, chunkNum := 0 } "peer3"

/-- The proposer of node 0 in a three-node cluster, before any round,
with one pending operation. -/
def p0 : ProposerState :=
  { myN := 0, highestN := 0, seqNum := 0, nodeID := 0, numNodes := 3,
    inPaxos := false, prepPhase := false, accPhase := false,
    accN := 0, accV := Operation.zero, oks := 0, pendingOps := [vp] }

/-- A two-round event sequence: round one receives a reply carrying v1
with accepted_n 5, then the round restarts (backoff timer); round two
receives an OK carrying v2 with accepted_n 2 and a plain OK, reaching a
majority of 2 of 3. -/
def events5 : List PaxEvent :=
  [PaxEvent.initPaxos,
   PaxEvent.prepareReply 3 Status.ok 5 v1 0,
   PaxEvent.initPaxos,
   PaxEvent.prepareReply 3 Status.ok 2 v2 0,
   PaxEvent.prepareReply 3 Status.ok 0 Operation.zero 0]

/-- A concrete digest function for witnesses: chunk [1] hashes to "A". -/
def hashA : List Nat → String := fun c => if c = [1] then "A" else "B"

/-- A one-chunk torrent whose chunk 0 has hash "A". -/
def torA : Torrent :=
  { id := { name := "c", hash := "ch" }, chunkHashes := [(0, "A")],
    trackerNodes := [{ hostPort := "t:1" }], chunkSize := 1, fileSize := 1 }

/-- One peer that serves chunk bytes [1], with a succeeding write. -/
def fetchesA : List PeerFetch := [PeerFetch.got [1] true]

/-- A chunk environment whose tracker reports hash "X" (different from
torA's "A") for every chunk. -/
def envX : Int → ChunkEnv :=
  fun _ => { trackerCall := some ("X", []), fetches := [] }

/-- The boolean fold that mirrors one committed operation's effect on
membership of address a in peers[c]: a Delete(c, a) clears it, an
Add(c, a) sets it, anything else leaves it. -/
def opStep (c : ChunkID) (a : String) (b : Bool) (v : Operation) : Bool :=
  if v.opType = OpType.delete ∧ v.chunk = c ∧ v.clientAddr = a then false
  else if v.opType = OpType.add ∧ v.chunk = c ∧ v.clientAddr = a then true
  else b

/-- All log keys are below the next slot to apply; holds initially and
is preserved by in-order commits. -/
def LogKeysBelow (t : TrackerState) : Prop :=
  ∀ k v, (k, v) ∈ t.log → k < t.seqNum

theorem alookup_aset_self {κ α : Type} [DecidableEq κ] (m : List (κ × α))
    (k : κ) (a : α) : alookup (aset m k a) k = some a := by
  induction m with
  | nil => simp [aset, alookup]
  | cons p rest ih =>
    obtain ⟨k0, a0⟩ := p
    by_cases h : k = k0
    · simp [aset, alookup, h]
    · simp [aset, alookup, h, ih]

theorem alookup_aset_ne {κ α : Type} [DecidableEq κ] (m : List (κ × α))
    {k q : κ} (a : α) (h : q ≠ k) : alookup (aset m k a) q = alookup m q := by
  induction m with
  | nil => simp [aset, alookup, h]
  | cons p rest ih =>
    obtain ⟨k0, a0⟩ := p
    by_cases h0 : k = k0
    · subst h0
      simp [aset, alookup, h]
    · by_cases h1 : q = k0
      · simp [aset, alookup, h0, h1]
      · simp [aset, alookup, h0, h1, ih]

theorem mem_of_alookup_eq_some {κ α : Type} [DecidableEq κ]
    {m : List (κ × α)} {q : κ} {a : α} (h : alookup m q = some a) :
    (q, a) ∈ m := by
  induction m with
  | nil => simp [alookup] at h
  | cons p rest ih =>
    obtain ⟨k0, a0⟩ := p
    by_cases h0 : q = k0
    · subst h0
      simp [alookup] at h
      simp [h]
    · simp [alookup, h0] at h
      simp [ih h]

theorem mem_aset {κ α : Type} [DecidableEq κ] {m : List (κ × α)}
    {k q : κ} {a b : α} (h : (q, b) ∈ aset m k a) :
    (q = k ∧ b = a) ∨ (q, b) ∈ m := by
  induction m with
  | nil =>
    simp [aset] at h
    exact Or.inl h
  | cons p rest ih =>
    obtain ⟨k0, a0⟩ := p
    by_cases h0 : k = k0
    · subst h0
      simp [aset] at h
      rcases h with h | h
      · exact Or.inl h
      · exact Or.inr (List.mem_cons_of_mem _ h)
    · simp [aset, h0] at h
      rcases h with h | h
      · exact Or.inr (by simp [h])
      · rcases ih h with h1 | h1
        · exact Or.inl h1
        · exact Or.inr (List.mem_cons_of_mem _ h1)

theorem hasAddr_addAddr_self (l : List String) (a : String) :
    hasAddr (addAddr l a) a = true := by
  unfold addAddr
  by_cases h : hasAddr l a
  · simp [h]
  · simp [h, hasAddr]

theorem hasAddr_addAddr_ne (l : List String) {a b : String} (h : a ≠ b) :
    hasAddr (addAddr l b) a = hasAddr l a := by
  unfold addAddr
  by_cases h0 : hasAddr l b
  · simp [h0]
  · simp [h0, hasAddr, h]

theorem hasAddr_removeAddr_self (l : List String) (a : String) :
    hasAddr (removeAddr l a) a = false := by
  induction l with
  | nil => simp [removeAddr, hasAddr]
  | cons x rest ih =>
    by_cases h : x = a
    · simp [removeAddr, h, ih]
    · simp [removeAddr, h, hasAddr, Ne.symm h, ih]

theorem hasAddr_removeAddr_ne (l : List String) {a b : String} (h : a ≠ b) :
    hasAddr (removeAddr l b) a = hasAddr l a := by
  induction l with
  | nil => simp [removeAddr]
  | cons x rest ih =>
    by_cases h0 : x = b
    · subst h0
      simp [removeAddr, hasAddr, h, ih]
    · by_cases h1 : a = x
      · simp [removeAddr, h0, hasAddr, h1]
      · simp [removeAddr, h0, hasAddr, h1, ih]

theorem peersContains_commitStep (t : TrackerState) (v : Operation)
    (c : ChunkID) (a : String) :
    peersContains (commitStep t v) c a = opStep c a (peersContains t c a) v := by
  obtain ⟨ty, k, addr, tor⟩ := v
  by_cases hc : k = c
  · subst hc
    rcases hl : alookup t.peers k with _ | l
    · cases ty with
      | none => simp [commitStep, opStep, peersContains, hl, alookup_aset_self]
      | create => simp [commitStep, opStep, peersContains, hl, alookup_aset_self]
      | add =>
        by_cases ha : addr = a
        · subst ha
          simp [commitStep, opStep, peersContains, hl, alookup_aset_self,
            hasAddr_addAddr_self]
        · have ha2 : a ≠ addr := fun hh => ha hh.symm
          simp [commitStep, opStep, peersContains, hl, alookup_aset_self,
            hasAddr_addAddr_ne, ha2, ha, hasAddr]
      | delete =>
        by_cases ha : addr = a
        · subst ha
          simp [commitStep, opStep, peersContains, hl, alookup_aset_self,
            hasAddr_removeAddr_self]
        · have ha2 : a ≠ addr := fun hh => ha hh.symm
          simp [commitStep, opStep, peersContains, hl, alookup_aset_self,
            hasAddr_removeAddr_ne, ha2, ha, removeAddr, hasAddr]
    · cases ty with
      | none => simp [commitStep, opStep, peersContains, hl]
      | create => simp [commitStep, opStep, peersContains, hl]
      | add =>
        by_cases ha : addr = a
        · subst ha
          simp [commitStep, opStep, peersContains, hl, alookup_aset_self,
            hasAddr_addAddr_self]
        · have ha2 : a ≠ addr := fun hh => ha hh.symm
          simp [commitStep, opStep, peersContains, hl, alookup_aset_self,
            hasAddr_addAddr_ne, ha2, ha]
      | delete =>
        by_cases ha : addr = a
        · subst ha
          simp [commitStep, opStep, peersContains, hl, alookup_aset_self,
            hasAddr_removeAddr_self]
        · have ha2 : a ≠ addr := fun hh => ha hh.symm
          simp [commitStep, opStep, peersContains, hl, alookup_aset_self,
            hasAddr_removeAddr_ne, ha2, ha]
  · have hc2 : c ≠ k := fun hh => hc hh.symm
    rcases hl : alookup t.peers k with _ | l <;> cases ty <;>
      simp [commitStep, opStep, peersContains, hl, hc, alookup_aset_ne, hc2]

theorem alookup_seqNum_eq_none {t : TrackerState} (h : LogKeysBelow t) :
    alookup t.log t.seqNum = Option.none := by
  rcases he : alookup t.log t.seqNum with _ | v
  · rfl
  · exact absurd (h _ _ (mem_of_alookup_eq_some he)) (lt_irrefl _)

theorem commitDrain_eq_self {t : TrackerState} (fuel : Nat)
    (h : alookup t.log t.seqNum = Option.none) : commitDrain fuel t = t := by
  cases fuel <;> simp [commitDrain, h]

theorem commitStep_log (t : TrackerState) (v : Operation) :
    (commitStep t v).log = t.log := rfl

theorem commitStep_seqNum (t : TrackerState) (v : Operation) :
    (commitStep t v).seqNum = t.seqNum + 1 := rfl

theorem peersContains_logOp (t : TrackerState) (s : Int) (v : Operation)
    (c : ChunkID) (a : String) :
    peersContains (logOp t s v) c a = peersContains t c a := rfl

theorem commitArrive_inOrder {t : TrackerState} (h : LogKeysBelow t)
    (v : Operation) :
    commitArrive t t.seqNum v = commitStep (logOp t t.seqNum v) v
      ∧ LogKeysBelow (commitArrive t t.seqNum v) := by
  have hbelow : LogKeysBelow (commitStep (logOp t t.seqNum v) v) := by
    intro k w hk
    rw [commitStep_log] at hk
    rw [commitStep_seqNum]
    simp only [logOp] at hk ⊢
    rcases mem_aset hk with ⟨hke, -⟩ | hkm
    · omega
    · have := h _ _ hkm
      omega
  have heq : commitArrive t t.seqNum v = commitStep (logOp t t.seqNum v) v := by
    unfold commitArrive commitOp
    rw [if_pos rfl]
    exact commitDrain_eq_self _ (alookup_seqNum_eq_none hbelow)
  exact ⟨heq, heq ▸ hbelow⟩

theorem commitList_peers (c : ChunkID) (a : String) :
    ∀ (ops : List Operation) (t : TrackerState), LogKeysBelow t →
      peersContains (commitList t ops) c a
          = ops.foldl (opStep c a) (peersContains t c a)
        ∧ LogKeysBelow (commitList t ops) := by
  intro ops
  induction ops with
  | nil => exact fun t h => ⟨rfl, h⟩
  | cons v ops ih =>
    intro t h
    obtain ⟨harr, hbelow⟩ := commitArrive_inOrder h v
    have hstep : peersContains (commitArrive t t.seqNum v) c a
        = opStep c a (peersContains t c a) v := by
      rw [harr, peersContains_commitStep, peersContains_logOp]
    obtain ⟨h1, h2⟩ := ih (commitArrive t t.seqNum v) hbelow
    refine ⟨?_, h2⟩
    show peersContains (commitList (commitArrive t t.seqNum v) ops) c a = _
    rw [h1, hstep]
    rfl

theorem logKeysBelow_init : LogKeysBelow TrackerState.init := by
  intro k v hk
  simp [TrackerState.init] at hk

theorem commitList_init_peers (ops : List Operation) (c : ChunkID) (a : String) :
    peersContains (commitList TrackerState.init ops) c a
      = ops.foldl (opStep c a) false :=
  (commitList_peers c a ops TrackerState.init logKeysBelow_init).1

theorem snoc_eq_snoc {α : Type} {l₁ l₂ : List α} {a b : α}
    (h : l₁ ++ [a] = l₂ ++ [b]) : l₁ = l₂ ∧ a = b := by
  have h2 := List.append_inj' h rfl
  exact ⟨h2.1, by simpa using h2.2⟩

theorem split_snoc {α : Type} {ops pre suf : List α} {v x : α}
    (h : ops ++ [x] = pre ++ v :: suf) :
    (pre = ops ∧ v = x ∧ suf = []) ∨ ∃ L, suf = L ++ [x] ∧ ops = pre ++ v :: L := by
  rcases List.eq_nil_or_concat' suf with hs | ⟨L, b, hs⟩
  · subst hs
    obtain ⟨h1, h2⟩ := snoc_eq_snoc h
    exact Or.inl ⟨h1.symm, h2.symm, rfl⟩
  · subst hs
    have h3 : ops ++ [x] = (pre ++ v :: L) ++ [b] := by
      rw [h]
      simp
    obtain ⟨h1, h2⟩ := snoc_eq_snoc h3
    subst h2
    exact Or.inr ⟨L, rfl, h1⟩

theorem foldl_opStep_eq_true_iff (c : ChunkID) (a : String) (ops : List Operation) :
    ops.foldl (opStep c a) false = true ↔
      ∃ pre v suf, ops = pre ++ v :: suf ∧
        (v.opType = OpType.add ∧ v.chunk = c ∧ v.clientAddr = a) ∧
        ∀ w ∈ suf, ¬ (w.opType = OpType.delete ∧ w.chunk = c ∧ w.clientAddr = a) := by
  induction ops using List.reverseRecOn with
  | nil =>
    constructor
    · intro h
      simp at h
    · rintro ⟨pre, v, suf, hsplit, -, -⟩
      exact absurd hsplit.symm (by simp)
  | append_singleton ops x ih =>
    rw [List.foldl_append, List.foldl_cons, List.foldl_nil]
    by_cases hdel : x.opType = OpType.delete ∧ x.chunk = c ∧ x.clientAddr = a
    · rw [opStep, if_pos hdel]
      constructor
      · intro h
        exact absurd h (by simp)
      · rintro ⟨pre, v, suf, hsplit, hadd, hnodel⟩
        rcases split_snoc hsplit with ⟨hpre, hv, hsuf⟩ | ⟨L, hsuf, hops⟩
        · rw [hv] at hadd
          rw [hdel.1] at hadd
          exact absurd hadd.1 (by simp)
        · exact absurd hdel (hnodel x (by rw [hsuf]; simp))
    · by_cases hadd : x.opType = OpType.add ∧ x.chunk = c ∧ x.clientAddr = a
      · rw [opStep, if_neg hdel, if_pos hadd]
        constructor
        · intro _
          exact ⟨ops, x, [], rfl, hadd, by simp⟩
        · intro _
          rfl
      · rw [opStep, if_neg hdel, if_neg hadd, ih]
        constructor
        · rintro ⟨pre, v, suf, hsplit, hv, hnodel⟩
          refine ⟨pre, v, suf ++ [x], by rw [hsplit]; simp, hv, ?_⟩
          intro w hw
          rcases List.mem_append.mp hw with hw | hw
          · exact hnodel w hw
          · have hwx : w = x := by simpa using hw
            rw [hwx]
            exact hdel
        · rintro ⟨pre, v, suf, hsplit, hv, hnodel⟩
          rcases split_snoc hsplit with ⟨hpre, hvx, hsuf⟩ | ⟨L, hsuf, hops⟩
          · rw [hvx] at hv
            exact absurd hv hadd
          · refine ⟨pre, v, L, hops, hv, ?_⟩
            intro w hw
            exact hnodel w (by rw [hsuf]; exact List.mem_append_left _ hw)

/-- C1: Starting from the empty applied state, after committing any
sequence of operations, addr is in peers[chunk] iff the sequence contains
an Add(chunk, addr) with no later Delete(chunk, addr); a Delete for an
address not in the peer set leaves peer-set membership unchanged (no
error); and the S1 sequence — Create(tor0) registering the torrent, then
Add(chunk0, "banana"), Add(chunk0, "apple"), Delete(chunk0, "banana") —
makes RequestChunk(chunk0) reply OK with peer set exactly \x7b"apple"\x7d.
The last two conjuncts check the Add/Add/Delete subsequence on the peers
map itself: "apple" is a member and "banana" is not. -/
theorem tracker_peerSet_correctness :
    (∀ (ops : List Operation) (c : ChunkID) (a : String),
      peersContains (commitList TrackerState.init ops) c a = true ↔
        ∃ pre v suf, ops = pre ++ v :: suf ∧
          (v.opType = OpType.add ∧ v.chunk = c ∧ v.clientAddr = a) ∧
          ∀ w ∈ suf, ¬ (w.opType = OpType.delete ∧ w.chunk = c ∧ w.clientAddr = a))
    ∧ (∀ (t : TrackerState) (c : ChunkID) (a : String),
        peersContains t c a = false →
        ∀ (x : ChunkID) (b : String),
          peersContains (commitStep t (mkDeleteOp c a)) x b = peersContains t x b)
    ∧ requestHandler
        (commitList TrackerState.init
          [mkCreateOp tor0, mkAddOp chunk0 "banana", mkAddOp chunk0 "apple",
            mkDeleteOp chunk0 "banana"]) chunk0
        = { status := Status.ok, peers := ["apple"], chunkHash := "banana" }
    ∧ peersContains (commitList TrackerState.init
        [mkAddOp chunk0 "banana", mkAddOp chunk0 "apple", mkDeleteOp chunk0 "banana"])
        chunk0 "apple" = true
    ∧ peersContains (commitList TrackerState.init
        [mkAddOp chunk0 "banana", mkAddOp chunk0 "apple", mkDeleteOp chunk0 "banana"])
        chunk0 "banana" = false := by
  refine ⟨?_, ?_, by decide, by decide, by decide⟩
  · intro ops c a
    rw [commitList_init_peers]
    exact foldl_opStep_eq_true_iff c a ops
  · intro t c a h x b
    rw [peersContains_commitStep]
    by_cases hx : c = x ∧ a = b
    · obtain ⟨h1, h2⟩ := hx
      subst h1
      subst h2
      simp [opStep, mkDeleteOp, h]
    · simp [opStep, mkDeleteOp, hx]

/-- Witness for C1: the Delete-on-absent-address conjunct applied at the
initial state, where "apple" is not in peers[chunk0]. -/
theorem tracker_peerSet_correctness_witness :
    peersContains TrackerState.init chunk0 "apple" = false
    ∧ peersContains (commitStep TrackerState.init (mkDeleteOp chunk0 "apple"))
        chunk0 "banana" = peersContains TrackerState.init chunk0 "banana" :=
  ⟨by decide,
    tracker_peerSet_correctness.2.1 TrackerState.init chunk0 "apple" (by decide)
      chunk0 "banana"⟩

/-- C2 (code-bug evidence): a CreateEntry whose descriptor names a
tracker set different from the cluster membership gets an immediate
InvalidTrackers reply, yet — because the creates handler does not return
after that reply — the Create operation is still enqueued as pending
when the TorrentID is unused, from where it can be proposed and enter
the log. -/
theorem createsHandler_invalidTrackers_still_enqueues :
    createsHandler cluster0 [] badTor
      = { replies := [Status.invalidTrackers], enqueued := [mkCreateOp badTor] }
    ∧ (createsHandler cluster0 [] badTor).enqueued ≠ []
    ∧ correctTrackers cluster0 badTor = false := by decide

/-- C3 (code-bug evidence): for Accept(n = 5, s = 3) at an acceptor with
seqNum 1 (a future slot), the handler enqueues a self catch-up to 3 but
the reply carries the never-assigned zero-value status — OK under the
spec's constant ordering — rather than Reject.  The remaining branches
behave as the claim states: a past slot replies OutOfDate, n below
highest_n replies Reject, and otherwise the acceptor adopts (n, v) and
replies OK. -/
theorem acceptHandler_future_slot_zero_status :
    acceptHandler { TrackerState.init with seqNum := 1 } 5 3 (mkAddOp chunk0 "a")
      = { status := statusZero, catchUpTo := some 3,
          post := { TrackerState.init with seqNum := 1 } }
    ∧ statusZero ≠ Status.reject
    ∧ (acceptHandler { TrackerState.init with seqNum := 1 } 5 0
        (mkAddOp chunk0 "a")).status = Status.outOfDate
    ∧ (acceptHandler { TrackerState.init with highestN := 7 } 5 0
        (mkAddOp chunk0 "a")).status = Status.reject
    ∧ acceptHandler { TrackerState.init with highestN := 3 } 5 0 (mkAddOp chunk0 "a")
      = { status := Status.ok, catchUpTo := Option.none,
          post := { TrackerState.init with
                      highestN := 5, accN := 5, accV := mkAddOp chunk0 "a" } } := by
  decide

/-- C5 (code-bug evidence): committing slot 0's value through catchUp
(which calls commitOp with no logOp) advances seqNum to 1 and applies the
Create — tor0 is registered — but leaves log[0] undefined, so GetOp(0)
replies OK with the zero-valued None operation instead of the committed
value. -/
theorem catchUp_leaves_log_gap :
    (catchUpStep TrackerState.init (mkCreateOp tor0)).seqNum = 1
    ∧ alookup (catchUpStep TrackerState.init (mkCreateOp tor0)).log 0 = Option.none
    ∧ getOpHandler (catchUpStep TrackerState.init (mkCreateOp tor0)) 0
        = { status := Status.ok, value := Operation.zero }
    ∧ Operation.zero ≠ mkCreateOp tor0
    ∧ alookup (catchUpStep TrackerState.init (mkCreateOp tor0)).torrents tor0.id
        = some tor0 := by
  decide

/-- C9: commitOp makes peers[v.Chunk] defined for every committed
operation regardless of kind: a Create (whose Chunk field is the
zero-valued ChunkID) inserts an empty peer-set entry keyed by the zero
ChunkID when absent, and a Delete for a chunk with no peer set inserts
an empty entry for that chunk. -/
theorem commitOp_peers_entry_defined :
    (∀ (t : TrackerState) (v : Operation),
      (alookup (commitStep t v).peers v.chunk).isSome = true)
    ∧ (∀ (t : TrackerState) (tor : Torrent),
        alookup t.peers ChunkID.zero = Option.none →
        alookup (commitStep t (mkCreateOp tor)).peers ChunkID.zero = some [])
    ∧ (∀ (t : TrackerState) (c : ChunkID) (a : String),
        alookup t.peers c = Option.none →
        alookup (commitStep t (mkDeleteOp c a)).peers c = some []) := by
  refine ⟨?_, ?_, ?_⟩
  · intro t v
    rcases hl : alookup t.peers v.chunk with _ | l <;>
      rcases hty : v.opType <;>
        simp [commitStep, hl, hty, alookup_aset_self]
  · intro t tor h
    simp [commitStep, mkCreateOp, h, alookup_aset_self]
  · intro t c a h
    simp [commitStep, mkDeleteOp, h, alookup_aset_self, removeAddr]

/-- Witness for C9: the Create and Delete conjuncts applied at the
initial state, whose peers map is empty. -/
theorem commitOp_peers_entry_defined_witness :
    alookup TrackerState.init.peers ChunkID.zero = Option.none
    ∧ alookup (commitStep TrackerState.init (mkCreateOp tor0)).peers ChunkID.zero
        = some []
    ∧ alookup (commitStep TrackerState.init (mkDeleteOp chunk0 "apple")).peers chunk0
        = some [] :=
  ⟨by decide,
    commitOp_peers_entry_defined.2.1 TrackerState.init tor0 (by decide),
    commitOp_peers_entry_defined.2.2 TrackerState.init chunk0 "apple" (by decide)⟩

/-- C10 counterexample: two pending Creates for different descriptors
(different TorrentIDs) both match the sweep's (OpType, Chunk, ClientAddr)
test when a Create commits, but only the first is removed and answered —
the second remains pending, refuting the claim that every pending Create
entry is removed and answered OK. -/
theorem sweepPending_second_create_not_answered :
    matchesOp (mkCreateOp tor0) (mkCreateOp badTor) = true
    ∧ sweepPending [mkCreateOp badTor, mkCreateOp tor0] (mkCreateOp badTor)
        = ([mkCreateOp badTor], [mkCreateOp tor0])
    ∧ mkCreateOp tor0 ∉
        (sweepPending [mkCreateOp badTor, mkCreateOp tor0] (mkCreateOp badTor)).1
    ∧ tor0.id ≠ badTor.id := by decide

/-- C10 amended: the sweep after a commit matches pending entries only on
(OpType, Chunk, ClientAddr), never the Torrent field, so when any Create
commits the FIRST pending Create entry — even one for a different
descriptor with a different TorrentID — is removed and answered OK; the
removal stops the sweep, so entries after it stay pending. -/
theorem sweepPending_first_match_only :
    (∀ p v : Operation, matchesOp p v = true ↔
      (p.opType = v.opType ∧ p.chunk = v.chunk ∧ p.clientAddr = v.clientAddr))
    ∧ (∀ (t1 t2 : Torrent) (rest : List Operation),
        sweepPending (mkCreateOp t1 :: rest) (mkCreateOp t2)
          = ([mkCreateOp t1], rest))
    ∧ (∀ (t : TrackerState) (v : Operation),
        (commitStep t v).pendingOps = (sweepPending t.pendingOps v).2) := by
  refine ⟨?_, ?_, ?_⟩
  · intro p v
    simp [matchesOp, and_assoc]
  · intro t1 t2 rest
    simp [sweepPending, matchesOp, mkCreateOp]
  · intro t v
    rfl

/-- C6 counterexample: for a CreateEntry whose TorrentID is already
registered but whose tracker_nodes mismatches the cluster, the first —
and hence delivered — reply is InvalidTrackers, not InvalidID. -/
theorem createsHandler_existing_id_bad_trackers_reply :
    (createsHandler cluster0 [(badTor.id, badTor)] badTor).replies.head?
      = some Status.invalidTrackers
    ∧ (createsHandler cluster0 [(badTor.id, badTor)] badTor).replies.head?
      ≠ some Status.invalidID
    ∧ alookup [(badTor.id, badTor)] badTor.id = some badTor := by decide

/-- C6 amended: a CreateEntry whose TorrentID is already present never
enqueues a Create (so nothing enters the log) and emits InvalidID as its
final reply; when the descriptor's tracker_nodes also matches the
cluster, InvalidID is the only — hence the delivered — reply.  The closed
conjuncts replay S2 with tor0: the first identical CreateEntry enqueues
the Create, whose commit answers the pending entry OK, and the second
CreateEntry then replies exactly InvalidID. -/
theorem createsHandler_existing_id_rejected :
    (∀ (nodes : List Node) (torrents : List (TorrentID × Torrent)) (tor : Torrent),
      (alookup torrents tor.id).isSome = true →
      (createsHandler nodes torrents tor).enqueued = []
      ∧ (createsHandler nodes torrents tor).replies.getLast? = some Status.invalidID
      ∧ (correctTrackers nodes tor = true →
          (createsHandler nodes torrents tor).replies = [Status.invalidID]))
    ∧ createsHandler cluster0 [] tor0
        = { replies := [], enqueued := [mkCreateOp tor0] }
    ∧ (sweepPending [mkCreateOp tor0] (mkCreateOp tor0)).1 = [mkCreateOp tor0]
    ∧ createsHandler cluster0
        (commitStep { TrackerState.init with pendingOps := [mkCreateOp tor0] }
          (mkCreateOp tor0)).torrents tor0
        = { replies := [Status.invalidID], enqueued := [] } := by
  refine ⟨?_, by decide, by decide, by decide⟩
  intro nodes torrents tor h
  rcases hl : alookup torrents tor.id with _ | x
  · rw [hl] at h
    simp at h
  · refine ⟨by simp [createsHandler, hl], ?_, ?_⟩
    · by_cases hct : correctTrackers nodes tor <;> simp [createsHandler, hl, hct]
    · intro hct
      simp [createsHandler, hl, hct]

/-- Witness for C6: the universally quantified conjunct applied to tor0
already registered on the single-node cluster. -/
theorem createsHandler_existing_id_rejected_witness :
    (alookup [(tor0.id, tor0)] tor0.id).isSome = true
    ∧ (createsHandler cluster0 [(tor0.id, tor0)] tor0).enqueued = []
    ∧ (createsHandler cluster0 [(tor0.id, tor0)] tor0).replies.getLast?
        = some Status.invalidID
    ∧ (createsHandler cluster0 [(tor0.id, tor0)] tor0).replies
        = [Status.invalidID] :=
  ⟨by decide,
    (createsHandler_existing_id_rejected.1 cluster0 [(tor0.id, tor0)] tor0
      (by decide)).1,
    (createsHandler_existing_id_rejected.1 cluster0 [(tor0.id, tor0)] tor0
      (by decide)).2.1,
    (createsHandler_existing_id_rejected.1 cluster0 [(tor0.id, tor0)] tor0
      (by decide)).2.2 (by decide)⟩

/-- C4 (code-bug evidence): a two-round proposer run on a three-node
cluster.  Round one (later aborted by the backoff timer) sees an OK
prepare reply carrying v1 with accepted_n 5, storing accN = 5.  The
round restart resets accV but not accN, so in round two the only OK
reply that carries a value — v2 with accepted_n 2 — is ignored (2 does
not exceed the stale 5), and on reaching the 2-of-3 majority the
proposer broadcasts Accept with the pending-queue head vp instead of the
current round's accepted value v2. -/
theorem paxosHandler_stale_accN_ignores_current_round_value :
    (paxosRun p0 events5).2
      = [PaxOut.prepareOut 3 0, PaxOut.nothingOut, PaxOut.prepareOut 3 0,
         PaxOut.nothingOut, PaxOut.acceptOut 3 0 vp]
    ∧ vp ≠ v2
    ∧ v2.opType ≠ OpType.none
    ∧ (paxosRun p0 events5).1.accN = 5 := by decide

/-- C7: downloadChunk returns a nil error only when some contacted peer
supplied bytes whose SHA-1 digest equals the descriptor's hash for that
chunk; every chunk it writes to the file has that digest; and if the
tracker's reported hash for any chunk of the download order differs from
the descriptor's hash, the whole download fails with a non-nil error. -/
theorem download_integrity :
    (∀ (h : List Nat → String) (tor : Torrent) (n : Int) (fetches : List PeerFetch),
      (downloadChunk h tor n fetches).1 = Option.none →
      ∃ c ok, PeerFetch.got c ok ∈ fetches ∧ h c = (alookup tor.chunkHashes n).getD "")
    ∧ (∀ (h : List Nat → String) (tor : Torrent) (n : Int) (fetches : List PeerFetch)
        (w : List Nat), w ∈ (downloadChunk h tor n fetches).2 →
        h w = (alookup tor.chunkHashes n).getD "")
    ∧ (∀ (h : List Nat → String) (tor : Torrent) (env : Int → ChunkEnv)
        (order : List Int) (c : Int), c ∈ order →
        ∀ rh ps, (env c).trackerCall = some (rh, ps) →
        rh ≠ (alookup tor.chunkHashes c).getD "" →
        downloadFile h tor env order ≠ Option.none) := by
  refine ⟨?_, ?_, ?_⟩
  · intro h tor n fetches
    induction fetches with
    | nil =>
      intro hnone
      simp [downloadChunk] at hnone
    | cons f rest ih =>
      intro hnone
      cases f with
      | dialFail =>
        obtain ⟨c, ok, hm, hh⟩ := ih (by simpa [downloadChunk] using hnone)
        exact ⟨c, ok, List.mem_cons_of_mem _ hm, hh⟩
      | rpcFail =>
        obtain ⟨c, ok, hm, hh⟩ := ih (by simpa [downloadChunk] using hnone)
        exact ⟨c, ok, List.mem_cons_of_mem _ hm, hh⟩
      | got chunk wok =>
        by_cases hh : h chunk = (alookup tor.chunkHashes n).getD ""
        · cases wok with
          | true => exact ⟨chunk, true, List.mem_cons_self _ _, hh⟩
          | false =>
            obtain ⟨c, ok, hm, hh2⟩ := ih (by simpa [downloadChunk, hh] using hnone)
            exact ⟨c, ok, List.mem_cons_of_mem _ hm, hh2⟩
        · obtain ⟨c, ok, hm, hh2⟩ := ih (by simpa [downloadChunk, hh] using hnone)
          exact ⟨c, ok, List.mem_cons_of_mem _ hm, hh2⟩
  · intro h tor n fetches
    induction fetches with
    | nil =>
      intro w hw
      simp [downloadChunk] at hw
    | cons f rest ih =>
      intro w hw
      cases f with
      | dialFail => exact ih w (by simpa [downloadChunk] using hw)
      | rpcFail => exact ih w (by simpa [downloadChunk] using hw)
      | got chunk wok =>
        by_cases hh : h chunk = (alookup tor.chunkHashes n).getD ""
        · cases wok with
          | true =>
            have hw2 : w = chunk := by simpa [downloadChunk, hh] using hw
            rw [hw2]
            exact hh
          | false => exact ih w (by simpa [downloadChunk, hh] using hw)
        · exact ih w (by simpa [downloadChunk, hh] using hw)
  · intro h tor env order
    induction order with
    | nil =>
      intro c hc
      simp at hc
    | cons d rest ih =>
      intro c hc rh ps htc hne
      rcases htcd : (env d).trackerCall with _ | ⟨rhd, psd⟩
      · simp [downloadFile, htcd]
      · by_cases heq : rhd = (alookup tor.chunkHashes d).getD ""
        · rcases List.mem_cons.mp hc with hcd | hcr
          · subst hcd
            rw [htc] at htcd
            obtain ⟨he1, -⟩ := Prod.mk.injEq .. ▸ (Option.some.inj htcd)
            exact absurd (he1 ▸ heq) hne
          · rcases hdc : downloadChunk h tor d (env d).fetches with ⟨err, ws⟩
            cases err with
            | none =>
              have hrec := ih c hcr rh ps htc hne
              simp [downloadFile, htcd, heq, hdc]
              exact hrec
            | some e =>
              simp [downloadFile, htcd, heq, hdc]
        · simp [downloadFile, htcd, heq]

/-- Witness for C7: a successful downloadChunk exhibits a matching peer
chunk, and a download whose tracker reports hash "X" against torA's
chunk hash "A" fails. -/
theorem download_integrity_witness :
    (∃ c ok, PeerFetch.got c ok ∈ fetchesA
      ∧ hashA c = (alookup torA.chunkHashes 0).getD "")
    ∧ downloadFile hashA torA envX [0] ≠ Option.none :=
  ⟨download_integrity.1 hashA torA 0 fetchesA (by decide),
    download_integrity.2.2 hashA torA envX [0] 0 (by decide) "X" [] (by decide)
      (by decide)⟩

/-- C8: when no tracker node listed in the torrent accepts a connection,
the offers case of the client eventHandler sends a nil error back to the
OfferFile caller — the failure is not surfaced. -/
theorem offerFile_unreachable_tracker_nil_error :
    ∀ (alive : String → Bool) (confirmCall : Nat → Option Status) (tor : Torrent),
      (∀ tn ∈ tor.trackerNodes, alive tn.hostPort = false) →
      offerReply alive confirmCall tor = Option.none := by
  intro alive cc tor h
  have hfind : getResponsiveTrackerNode alive tor = Option.none := by
    unfold getResponsiveTrackerNode
    rw [List.find?_eq_none]
    intro tn htn
    simp [h tn htn]
  simp [offerReply, hfind]

/-- Witness for C8: a client offering tor0 while every dial fails gets a
nil error. -/
theorem offerFile_unreachable_tracker_nil_error_witness :
    offerReply (fun _ => false) (fun _ => Option.none) tor0 = Option.none :=
  offerFile_unreachable_tracker_nil_error (fun _ => false) (fun _ => Option.none)
    tor0 (fun _ _ => rfl)
